import Mathlib

/-!
Shallow embedding of the totpify one-time-password library (`src/utils.ts`,
`src/totp.ts`, `src/types.ts`) together with proofs about its Base32 codec,
HOTP engine and TOTP engine.

Modelling conventions:
* JavaScript numbers are modelled as `Int`/`Nat`; every 32-bit bitwise
  coercion of the source (`& 0xff`, `>>> 8`, `<< 5`, `|`) is made explicit
  with `% 2^32` wrap-around where the operand can leave the 32-bit range.
* Strings are Lean `String`s; `toUpperCase` is modelled on the basic-latin
  range (`Char.toUpper`), the range inhabited by the Base32 alphabet.
* Thrown JavaScript `Error`s are modelled as `Except String` values carrying
  the thrown message.
* The external Node `crypto` HMAC primitive (consumed by the source as a
  black box) is modelled by executable SHA-1 / SHA-256 / SHA-512 and the
  HMAC construction, exactly as the `crypto` module computes them.
-/

set_option maxRecDepth 100000

namespace Totpify

/-! ### JavaScript numeric and character primitives -/

/-- JavaScript `ToUint32` of an integral number: the 32-bit pattern as a `Nat`. -/
def jsToUint32 (t : Int) : Nat := (t % (4294967296 : Int)).toNat

/-- Truncation to a 32-bit word. -/
def w32 (x : Nat) : Nat := x % 4294967296

/-- Membership in the JavaScript regex class `\s` (whitespace). -/
def isJsSpace (c : Char) : Bool :=
  c.toNat = 32 || c.toNat = 9 || c.toNat = 10 || c.toNat = 11 || c.toNat = 12 ||
  c.toNat = 13 || c.toNat = 160 || c.toNat = 5760 ||
  (8192 ≤ c.toNat && c.toNat ≤ 8202) || c.toNat = 8232 || c.toNat = 8233 ||
  c.toNat = 8239 || c.toNat = 8287 || c.toNat = 12288 || c.toNat = 65279

/-! ### `normalizeSecret` and `decodeBase32` (`src/utils.ts`) -/

/-- Model of `normalizeSecret` (utils.ts): strip all whitespace, then upper-case. -/
def normalizeSecret (secret : String) : String :=
  ⟨(secret.data.filter (fun c => !isJsSpace c)).map Char.toUpper⟩

/-- Model of the padding strip: drop the trailing run of equals-sign characters. -/
def stripTrailingEq (s : String) : String :=
  ⟨(s.data.reverse.dropWhile (fun c => c = '=')).reverse⟩

/-- The Base32 alphabet of the decoder. -/
def b32Alphabet : List Char := "ABCDEFGHIJKLMNOPQRSTUVWXYZ234567".data

/-- Model of `alphabet.indexOf(char)`; the regex guard of the decoder makes the
not-found case unreachable. -/
def b32Index (c : Char) : Nat := b32Alphabet.findIdx (fun x => x == c)

/-- The character class of the regex `/^[A-Z2-7]+$/`. -/
def isB32Char (c : Char) : Bool :=
  (65 ≤ c.toNat && c.toNat ≤ 90) || (50 ≤ c.toNat && c.toNat ≤ 55)

/-- State of the decoder's bit-accumulation loop. -/
structure B32State where
  value : Nat
  bits : Nat
  result : List Nat

/-- One iteration of the decoder loop: `value = (value << 5) | index`
(a 32-bit operation), accumulate 5 bits, emit a byte once 8 are buffered. -/
def b32Step (st : B32State) (c : Char) : B32State :=
  let value := w32 ((st.value <<< 5) ||| b32Index c)
  let bits := st.bits + 5
  if 8 ≤ bits then
    { value := value, bits := bits - 8,
      result := st.result ++ [(value >>> (bits - 8)) &&& 255] }
  else
    { value := value, bits := bits, result := st.result }

/-- Model of `decodeBase32` (utils.ts).  After the emptiness check the regex test
`/^[A-Z2-7]+$/` is equivalent to an all-characters check. -/
def decodeBase32 (base32 : String) : Except String (List Nat) :=
  let normalizedKey := stripTrailingEq (normalizeSecret base32)
  if normalizedKey.data.length = 0 then
    .error "Empty Base32 string"
  else if !(normalizedKey.data.all isB32Char) then
    .error "Invalid base32 character in key"
  else
    .ok (normalizedKey.data.foldl b32Step ⟨0, 0, []⟩).result

/-! ### Decimal rendering (`otp.toString().padStart(digits, '0')`) -/

/-- Decimal digit characters of `n`, most significant first, with structural
fuel (`decChars (n+1) n` always has enough fuel). -/
def decChars : Nat → Nat → List Char
  | 0, _ => []
  | fuel + 1, n =>
    if n < 10 then [Char.ofNat (48 + n)]
    else decChars fuel (n / 10) ++ [Char.ofNat (48 + n % 10)]

/-- Model of `Number.prototype.toString()` for a non-negative integer. -/
def natToString (n : Nat) : String := ⟨decChars (n + 1) n⟩

/-- Model of `String.prototype.padStart` with a zero pad character. -/
def padStartZero (s : String) (width : Nat) : String :=
  ⟨List.replicate (width - s.data.length) '0' ++ s.data⟩

/-! ### The external HMAC primitive (Node `crypto`)

The source consumes `crypto.createHmac(algo, key).update(data).digest()` as a
black box.  It is modelled here by the standard SHA-1 / SHA-256 / SHA-512
compression functions and the HMAC construction (FIPS 180-4, RFC 2104), all
executable over byte lists. -/

/-- Truncation to a 64-bit word. -/
def w64 (x : Nat) : Nat := x % 18446744073709551616

/-- Left rotation of a 32-bit word. -/
def rotl32 (n x : Nat) : Nat := (w32 (x <<< n)) ||| (x >>> (32 - n))

/-- Right rotation of a 32-bit word. -/
def rotr32 (n x : Nat) : Nat := (x >>> n) ||| (w32 (x <<< (32 - n)))

/-- Right rotation of a 64-bit word. -/
def rotr64 (n x : Nat) : Nat := (x >>> n) ||| (w64 (x <<< (64 - n)))

/-- Big-endian bytes of `x`, `len` bytes wide. -/
def toBeBytes : Nat → Nat → List Nat
  | 0, _ => []
  | len + 1, x => toBeBytes len (x / 256) ++ [x % 256]

/-- Merkle–Damgård padding: `0x80`, zeros, then the bit length on
`lenBytes` bytes, to a multiple of `blockSize`. -/
def mdPad (blockSize lenBytes : Nat) (msg : List Nat) : List Nat :=
  msg ++ [128] ++
  List.replicate ((blockSize - ((msg.length + 1 + lenBytes) % blockSize)) % blockSize) 0 ++
  toBeBytes lenBytes (8 * msg.length)

/-- Split into `size`-byte chunks (`fuel ≥ number of chunks`). -/
def chunksOf (size : Nat) : Nat → List Nat → List (List Nat)
  | 0, _ => []
  | fuel + 1, l => if l.length = 0 then [] else l.take size :: chunksOf size fuel (l.drop size)

/-- The sixteen big-endian words of one block (`wordBytes` bytes per word). -/
def blockWords (wordBytes : Nat) (block : List Nat) : List Nat :=
  (List.range 16).map (fun i =>
    (List.range wordBytes).foldl (fun acc j => acc * 256 + block.getD (wordBytes * i + j) 0) 0)

/-- SHA-1 working state. -/
structure Sha1State where
  a : Nat
  b : Nat
  c : Nat
  d : Nat
  e : Nat

/-- SHA-1 message-schedule expansion (append `fuel` further words). -/
def sha1Expand : Nat → List Nat → List Nat
  | 0, w => w
  | fuel + 1, w =>
    sha1Expand fuel (w ++ [rotl32 1 (w.getD (w.length - 3) 0 ^^^ w.getD (w.length - 8) 0 ^^^
      w.getD (w.length - 14) 0 ^^^ w.getD (w.length - 16) 0)])

/-- The SHA-1 round function. -/
def sha1F (i b c d : Nat) : Nat :=
  if i < 20 then (b &&& c) ||| ((b ^^^ 4294967295) &&& d)
  else if i < 40 then b ^^^ c ^^^ d
  else if i < 60 then (b &&& c) ||| (b &&& d) ||| (c &&& d)
  else b ^^^ c ^^^ d

/-- The SHA-1 round constants. -/
def sha1K (i : Nat) : Nat :=
  if i < 20 then 1518500249
  else if i < 40 then 1859775393
  else if i < 60 then 2400959708
  else 3395469782

/-- One SHA-1 round. -/
def sha1Step (w : List Nat) (st : Sha1State) (i : Nat) : Sha1State :=
  ⟨w32 (rotl32 5 st.a + sha1F i st.b st.c st.d + st.e + sha1K i + w.getD i 0),
   st.a, rotl32 30 st.b, st.c, st.d⟩

/-- SHA-1 compression of one 64-byte block. -/
def sha1Compress (st : Sha1State) (block : List Nat) : Sha1State :=
  let w := sha1Expand 64 (blockWords 4 block)
  let r := (List.range 80).foldl (sha1Step w) st
  ⟨w32 (st.a + r.a), w32 (st.b + r.b), w32 (st.c + r.c), w32 (st.d + r.d), w32 (st.e + r.e)⟩

/-- The SHA-1 initialization vector. -/
def sha1Init : Sha1State := ⟨1732584193, 4023233417, 2562383102, 271733878, 3285377520⟩

/-- SHA-1 of a byte list. -/
def sha1 (msg : List Nat) : List Nat :=
  let padded := mdPad 64 8 msg
  let fin := (chunksOf 64 padded.length padded).foldl sha1Compress sha1Init
  toBeBytes 4 fin.a ++ toBeBytes 4 fin.b ++ toBeBytes 4 fin.c ++
  toBeBytes 4 fin.d ++ toBeBytes 4 fin.e

example : sha1 [] = [218, 57, 163, 238, 94, 107, 75, 13, 50, 85, 191, 239,
    149, 96, 24, 144, 175, 216, 7, 9] := by rfl

/-- SHA-2 working state (eight words). -/
structure Sha2State where
  a : Nat
  b : Nat
  c : Nat
  d : Nat
  e : Nat
  f : Nat
  g : Nat
  h : Nat

/-- The SHA-256 round constants. -/
def sha256K : List Nat :=
[ 1116352408, 1899447441, 3049323471, 3921009573, 961987163, 1508970993,
  2453635748, 2870763221, 3624381080, 310598401, 607225278, 1426881987,
  1925078388, 2162078206, 2614888103, 3248222580, 3835390401, 4022224774,
  264347078, 604807628, 770255983, 1249150122, 1555081692, 1996064986,
  2554220882, 2821834349, 2952996808, 3210313671, 3336571891, 3584528711,
  113926993, 338241895, 666307205, 773529912, 1294757372, 1396182291,
  1695183700, 1986661051, 2177026350, 2456956037, 2730485921, 2820302411,
  3259730800, 3345764771, 3516065817, 3600352804, 4094571909, 275423344,
  430227734, 506948616, 659060556, 883997877, 958139571, 1322822218,
  1537002063, 1747873779, 1955562222, 2024104815, 2227730452, 2361852424,
  2428436474, 2756734187, 3204031479, 3329325298]

/-- SHA-256 message-schedule expansion (append `fuel` further words). -/
def sha256Expand : Nat → List Nat → List Nat
  | 0, w => w
  | fuel + 1, w =>
    let w15 := w.getD (w.length - 15) 0
    let w2 := w.getD (w.length - 2) 0
    let s0 := rotr32 7 w15 ^^^ rotr32 18 w15 ^^^ (w15 >>> 3)
    let s1 := rotr32 17 w2 ^^^ rotr32 19 w2 ^^^ (w2 >>> 10)
    sha256Expand fuel (w ++ [w32 (s1 + w.getD (w.length - 7) 0 + s0 + w.getD (w.length - 16) 0)])

/-- One SHA-256 round. -/
def sha256Step (w : List Nat) (st : Sha2State) (i : Nat) : Sha2State :=
  let s1 := rotr32 6 st.e ^^^ rotr32 11 st.e ^^^ rotr32 25 st.e
  let ch := (st.e &&& st.f) ^^^ ((st.e ^^^ 4294967295) &&& st.g)
  let t1 := w32 (st.h + s1 + ch + sha256K.getD i 0 + w.getD i 0)
  let s0 := rotr32 2 st.a ^^^ rotr32 13 st.a ^^^ rotr32 22 st.a
  let maj := (st.a &&& st.b) ^^^ (st.a &&& st.c) ^^^ (st.b &&& st.c)
  ⟨w32 (t1 + w32 (s0 + maj)), st.a, st.b, st.c, w32 (st.d + t1), st.e, st.f, st.g⟩

/-- SHA-256 compression of one 64-byte block. -/
def sha256Compress (st : Sha2State) (block : List Nat) : Sha2State :=
  let w := sha256Expand 48 (blockWords 4 block)
  let r := (List.range 64).foldl (sha256Step w) st
  ⟨w32 (st.a + r.a), w32 (st.b + r.b), w32 (st.c + r.c), w32 (st.d + r.d),
   w32 (st.e + r.e), w32 (st.f + r.f), w32 (st.g + r.g), w32 (st.h + r.h)⟩

/-- The SHA-256 initialization vector. -/
def sha256Init : Sha2State :=
  ⟨1779033703, 3144134277, 1013904242, 2773480762,
   1359893119, 2600822924, 528734635, 1541459225⟩

/-- SHA-256 of a byte list. -/
def sha256 (msg : List Nat) : List Nat :=
  let padded := mdPad 64 8 msg
  let fin := (chunksOf 64 padded.length padded).foldl sha256Compress sha256Init
  toBeBytes 4 fin.a ++ toBeBytes 4 fin.b ++ toBeBytes 4 fin.c ++ toBeBytes 4 fin.d ++
  toBeBytes 4 fin.e ++ toBeBytes 4 fin.f ++ toBeBytes 4 fin.g ++ toBeBytes 4 fin.h

/-- The SHA-512 round constants. -/
def sha512K : List Nat :=
[ 4794697086780616226, 8158064640168781261, 13096744586834688815,
  16840607885511220156, 4131703408338449720, 6480981068601479193,
  10538285296894168987, 12329834152419229976, 15566598209576043074,
  1334009975649890238, 2608012711638119052, 6128411473006802146,
  8268148722764581231, 9286055187155687089, 11230858885718282805,
  13951009754708518548, 16472876342353939154, 17275323862435702243,
  1135362057144423861, 2597628984639134821, 3308224258029322869,
  5365058923640841347, 6679025012923562964, 8573033837759648693,
  10970295158949994411, 12119686244451234320, 12683024718118986047,
  13788192230050041572, 14330467153632333762, 15395433587784984357,
  489312712824947311, 1452737877330783856, 2861767655752347644,
  3322285676063803686, 5560940570517711597, 5996557281743188959,
  7280758554555802590, 8532644243296465576, 9350256976987008742,
  10552545826968843579, 11727347734174303076, 12113106623233404929,
  14000437183269869457, 14369950271660146224, 15101387698204529176,
  15463397548674623760, 17586052441742319658, 1182934255886127544,
  1847814050463011016, 2177327727835720531, 2830643537854262169,
  3796741975233480872, 4115178125766777443, 5681478168544905931,
  6601373596472566643, 7507060721942968483, 8399075790359081724,
  8693463985226723168, 9568029438360202098, 10144078919501101548,
  10430055236837252648, 11840083180663258601, 13761210420658862357,
  14299343276471374635, 14566680578165727644, 15097957966210449927,
  16922976911328602910, 17689382322260857208, 500013540394364858,
  748580250866718886, 1242879168328830382, 1977374033974150939,
  2944078676154940804, 3659926193048069267, 4368137639120453308,
  4836135668995329356, 5532061633213252278, 6448918945643986474,
  6902733635092675308, 7801388544844847127]

/-- SHA-512 message-schedule expansion (append `fuel` further words). -/
def sha512Expand : Nat → List Nat → List Nat
  | 0, w => w
  | fuel + 1, w =>
    let w15 := w.getD (w.length - 15) 0
    let w2 := w.getD (w.length - 2) 0
    let s0 := rotr64 1 w15 ^^^ rotr64 8 w15 ^^^ (w15 >>> 7)
    let s1 := rotr64 19 w2 ^^^ rotr64 61 w2 ^^^ (w2 >>> 6)
    sha512Expand fuel (w ++ [w64 (s1 + w.getD (w.length - 7) 0 + s0 + w.getD (w.length - 16) 0)])

/-- One SHA-512 round. -/
def sha512Step (w : List Nat) (st : Sha2State) (i : Nat) : Sha2State :=
  let s1 := rotr64 14 st.e ^^^ rotr64 18 st.e ^^^ rotr64 41 st.e
  let ch := (st.e &&& st.f) ^^^ ((st.e ^^^ 18446744073709551615) &&& st.g)
  let t1 := w64 (st.h + s1 + ch + sha512K.getD i 0 + w.getD i 0)
  let s0 := rotr64 28 st.a ^^^ rotr64 34 st.a ^^^ rotr64 39 st.a
  let maj := (st.a &&& st.b) ^^^ (st.a &&& st.c) ^^^ (st.b &&& st.c)
  ⟨w64 (t1 + w64 (s0 + maj)), st.a, st.b, st.c, w64 (st.d + t1), st.e, st.f, st.g⟩

/-- SHA-512 compression of one 128-byte block. -/
def sha512Compress (st : Sha2State) (block : List Nat) : Sha2State :=
  let w := sha512Expand 64 (blockWords 8 block)
  let r := (List.range 80).foldl (sha512Step w) st
  ⟨w64 (st.a + r.a), w64 (st.b + r.b), w64 (st.c + r.c), w64 (st.d + r.d),
   w64 (st.e + r.e), w64 (st.f + r.f), w64 (st.g + r.g), w64 (st.h + r.h)⟩

/-- The SHA-512 initialization vector. -/
def sha512Init : Sha2State :=
  ⟨7640891576956012808, 13503953896175478587, 4354685564936845355,
   11912009170470909681, 5840696475078001361, 11170449401992604703,
   2270897969802886507, 6620516959819538809⟩

/-- SHA-512 of a byte list. -/
def sha512 (msg : List Nat) : List Nat :=
  let padded := mdPad 128 16 msg
  let fin := (chunksOf 128 padded.length padded).foldl sha512Compress sha512Init
  toBeBytes 8 fin.a ++ toBeBytes 8 fin.b ++ toBeBytes 8 fin.c ++ toBeBytes 8 fin.d ++
  toBeBytes 8 fin.e ++ toBeBytes 8 fin.f ++ toBeBytes 8 fin.g ++ toBeBytes 8 fin.h

example : sha256 [] = [227, 176, 196, 66, 152, 252, 28, 20, 154, 251, 244, 200,
    153, 111, 185, 36, 39, 174, 65, 228, 100, 155, 147, 76, 164, 149, 153, 27,
    120, 82, 184, 85] := by rfl

example : sha512 [] = [207, 131, 225, 53, 126, 239, 184, 189, 241, 84, 40, 80,
    214, 109, 128, 7, 214, 32, 228, 5, 11, 87, 21, 220, 131, 244, 169, 33, 211,
    108, 233, 206, 71, 208, 209, 60, 93, 133, 242, 176, 255, 131, 24, 210, 135,
    126, 236, 47, 99, 185, 49, 189, 71, 65, 122, 129, 165, 56, 50, 122, 249, 39,
    218, 62] := by rfl

/-- HMAC (RFC 2104), as Node `crypto.createHmac` computes it: keys longer than
the block are hashed, shorter keys are zero-padded. -/
def hmacWith (hash : List Nat → List Nat) (blockSize : Nat) (key msg : List Nat) :
    List Nat :=
  let k0 := if blockSize < key.length then hash key else key
  let k := k0 ++ List.replicate (blockSize - k0.length) 0
  hash ((k.map (fun b => b ^^^ 92)) ++ hash ((k.map (fun b => b ^^^ 54)) ++ msg))

/-- The source's closed algorithm enumeration (types.ts). -/
inductive HashAlgorithm where
  | sha1
  | sha256
  | sha512
deriving DecidableEq

/-- Model of `crypto.createHmac(algoMap[algorithm], key).update(data).digest()`. -/
def hmacDigest : HashAlgorithm → List Nat → List Nat → List Nat
  | .sha1 => hmacWith sha1 64
  | .sha256 => hmacWith sha256 64
  | .sha512 => hmacWith sha512 128

example : hmacDigest .sha1 [72, 101, 108, 108, 111, 33, 222, 173, 190, 239]
    [0, 0, 0, 0, 0, 0, 0, 0] =
    [44, 216, 233, 4, 227, 149, 167, 65, 72, 119, 170, 47, 130, 97, 225, 36,
     53, 114, 196, 53] := by rfl

example : hmacDigest .sha256 [72, 101, 108, 108, 111, 33, 222, 173, 190, 239]
    [0, 0, 0, 0, 0, 0, 0, 0] =
    [214, 157, 171, 178, 245, 225, 238, 11, 175, 18, 231, 0, 174, 121, 34, 114,
     34, 35, 75, 133, 236, 116, 247, 242, 14, 164, 29, 179, 16, 193, 35, 215] := by rfl

example : decodeBase32 "JBSWY3DPEHPK3PXP" =
    .ok [72, 101, 108, 108, 111, 33, 222, 173, 190, 239] := by rfl

/-! ### `generateHOTP` (`src/utils.ts`) -/

/-- The 8-byte counter buffer of `generateHOTP`: the loop
`counterBuffer[i] = tempCounter & 0xff; tempCounter = tempCounter >>> 8`
coerces the counter through 32 bits at each JavaScript bitwise operation. -/
def counterBytes : Nat → Int → List Nat
  | 0, _ => []
  | k + 1, t => counterBytes k (Int.ofNat (jsToUint32 t / 256)) ++ [jsToUint32 t % 256]

/-- The truncation offset `digest[digest.length - 1] & 0x0f` of `generateHOTP`. -/
def hotpOffset (digest : List Nat) : Nat :=
  (digest.getD (digest.length - 1) 0) &&& 15

/-- The `binary` value of `generateHOTP`:
`((digest[offset] & 0x7f) << 24) | ((digest[offset+1] & 0xff) << 16) | ...`
(all operands stay below `2^31`, so the 32-bit coercions are identities). -/
def hotpBinary (digest : List Nat) : Nat :=
  ((((digest.getD (hotpOffset digest) 0) &&& 127) <<< 24) |||
   (((digest.getD (hotpOffset digest + 1) 0) &&& 255) <<< 16)) |||
  (((digest.getD (hotpOffset digest + 2) 0) &&& 255) <<< 8) |||
  ((digest.getD (hotpOffset digest + 3) 0) &&& 255)

/-- The dynamic-truncation and rendering tail of `generateHOTP`, factored
over the HMAC digest. -/
def hotpFromDigest (digest : List Nat) (digits : Nat) : String :=
  padStartZero (natToString (hotpBinary digest % 10 ^ digits)) digits

/-- Model of `generateHOTP` (utils.ts). -/
def generateHOTP (key : List Nat) (counter : Int) (algorithm : HashAlgorithm)
    (digits : Nat) : String :=
  hotpFromDigest (hmacDigest algorithm key (counterBytes 8 counter)) digits

/-! ### `generateTOTP` and `verifyTOTP` (`src/totp.ts`) -/

/-- The duck-typed `string | Uint8Array` secret parameter. -/
inductive Secret where
  | text (s : String)
  | raw (bytes : List Nat)

/-- JavaScript truthiness of the secret argument: only the empty string is
falsy — a `Uint8Array`, even an empty one, is an object and hence truthy. -/
def secretFalsy : Secret → Bool
  | .text s => s.data.length = 0
  | .raw _ => false

/-- The option bag (types.ts).  `timestamp` is explicit here; the source
defaults it to `Date.now()`, an environment read outside the pure core. -/
structure TOTPOptions where
  algorithm : Option HashAlgorithm := none
  digits : Option Nat := none
  period : Option Nat := none
  timestamp : Int
  window : Option Int := none

/-- The result record of verification (types.ts). -/
structure VerifyResult where
  valid : Bool
  delta : Option Int := none
deriving DecidableEq

/-- The TOTP step counter `Math.floor(timestamp / 1000 / period)`. -/
def counterOf (timestamp : Int) (period : Nat) : Int :=
  Int.fdiv timestamp (1000 * (period : Int))

/-- Resolution of the secret argument to raw bytes, wrapping decode errors. -/
def secretBytesOf : Secret → Except String (List Nat)
  | .text s =>
    match decodeBase32 s with
    | .ok b => .ok b
    | .error e => .error ("Invalid secret: " ++ e)
  | .raw b => .ok b

/-- Model of `generateTOTP` (totp.ts). -/
def generateTOTP (secret : Secret) (options : TOTPOptions) : Except String String :=
  let algorithm := options.algorithm.getD .sha1
  let digits := options.digits.getD 6
  let period := options.period.getD 30
  let timestamp := options.timestamp
  if secretFalsy secret then
    .error "Secret must be provided"
  else
    match secretBytesOf secret with
    | .error e => .error e
    | .ok secretBytes =>
      .ok (generateHOTP secretBytes (counterOf timestamp period) algorithm digits)

/-- The code `generateTOTP` produces once the secret has resolved to bytes. -/
def totpCode (key : List Nat) (algorithm : HashAlgorithm) (digits period : Nat)
    (timestamp : Int) : String :=
  generateHOTP key (counterOf timestamp period) algorithm digits

/-- The window offsets `-window, ..., +window` in iteration order of the
`for` loop of `verifyTOTP` (empty when `window < 0`). -/
def windowOffsets (window : Int) : List Int :=
  (List.range (2 * window + 1).toNat).map (fun (j : Nat) => -window + (j : Int))

/-- The verification loop of `verifyTOTP`: first textual match wins; a
generation failure (thrown in the source) aborts the whole call. -/
def verifyLoop (token : String) (secret : Secret) (algorithm : HashAlgorithm)
    (digits period : Nat) (timestamp : Int) : List Int → Except String VerifyResult
  | [] => .ok ⟨false, none⟩
  | i :: rest =>
    match generateTOTP secret
      { algorithm := some algorithm, digits := some digits, period := some period,
        timestamp := timestamp + i * (period : Int) * 1000 } with
    | .error e => .error e
    | .ok generatedToken =>
      if generatedToken = token then .ok ⟨true, some i⟩
      else verifyLoop token secret algorithm digits period timestamp rest

/-- Model of `verifyTOTP` (totp.ts).  The format guard
`!token || token.length !== digits || !/^\d+$/.test(token)`: for a nonempty
token the regex test is exactly an all-characters-are-digits check. -/
def verifyTOTP (token : String) (secret : Secret) (options : TOTPOptions) :
    Except String VerifyResult :=
  let window := options.window.getD 1
  let algorithm := options.algorithm.getD .sha1
  let digits := options.digits.getD 6
  let period := options.period.getD 30
  let timestamp := options.timestamp
  if token.data.length = 0 ∨ token.data.length ≠ digits ∨ ¬token.data.all Char.isDigit then
    .ok ⟨false, none⟩
  else
    verifyLoop token secret algorithm digits period timestamp (windowOffsets window)

/-- The digest width of each algorithm. -/
def digestLength : HashAlgorithm → Nat
  | .sha1 => 20
  | .sha256 => 32
  | .sha512 => 64

/-- Modelled on the words of the spec (C1 refinement side): the `binary`: four bytes starting at
`digest[last] & 0x0F`, read as a big-endian integer after masking the top
bit of the first byte to zero. -/
def specBinary (digest : List Nat) : Nat :=
  let offset := (digest.getD (digest.length - 1) 0) &&& 15
  [digest.getD offset 0 % 128, digest.getD (offset + 1) 0,
   digest.getD (offset + 2) 0, digest.getD (offset + 3) 0].foldl
    (fun acc b => acc * 256 + b) 0

/-- Modelled on the words of the spec (C1 refinement side): the code: `binary mod 10^digitCount`, decimal,
left-zero-padded to `digitCount` characters. -/
def specDynamicTruncation (digest : List Nat) (digits : Nat) : String :=
  padStartZero (natToString (specBinary digest % 10 ^ digits)) digits

/-- Modelled on the words of the spec (C2 refinement side): the serialization where byte `i` is
`floor(counter / 256^(7-i)) mod 256` (true 64-bit big-endian). -/
def specCounterBytes (counter : Nat) : List Nat :=
  (List.range 8).map (fun i => counter / 256 ^ (7 - i) % 256)

/-- Derived definition: the raw key bytes that `generateTOTP` resolves the secret to when it
does not throw: a raw secret is passed through (even when empty — a
`Uint8Array` is truthy); a textual secret must be nonempty and decode. -/
def secretKey : Secret → Option (List Nat)
  | .text s => if s.data.length = 0 then none else (decodeBase32 s).toOption
  | .raw b => some b

example : decodeBase32 "jbswY3DP ehpk3pxp===" =
    .ok [72, 101, 108, 108, 111, 33, 222, 173, 190, 239] := by rfl

example : decodeBase32 "" = .error "Empty Base32 string" := by rfl

example : decodeBase32 "!@" = .error "Invalid base32 character in key" := by rfl

example : natToString 90202 = "90202" := by rfl

example : padStartZero (natToString 90202) 6 = "090202" := by rfl

/-! ### Basic facts about the byte-level helpers -/

theorem string_length_eq_data (s : String) : s.length = s.data.length := rfl

theorem toBeBytes_length (len : Nat) : ∀ x, (toBeBytes len x).length = len := by
  induction len with
  | zero => intro x; rfl
  | succ n ih => intro x; simp [toBeBytes, ih]

theorem toBeBytes_lt (len : Nat) : ∀ x, ∀ b ∈ toBeBytes len x, b < 256 := by
  induction len with
  | zero => intro x b hb; simp [toBeBytes] at hb
  | succ n ih =>
    intro x b hb
    simp only [toBeBytes, List.mem_append, List.mem_singleton] at hb
    rcases hb with h | h
    · exact ih _ b h
    · subst h; exact Nat.mod_lt _ (by norm_num)

theorem mem_append_bytes {l₁ l₂ : List Nat} (h₁ : ∀ b ∈ l₁, b < 256)
    (h₂ : ∀ b ∈ l₂, b < 256) : ∀ b ∈ l₁ ++ l₂, b < 256 := by
  intro b hb
  rcases List.mem_append.mp hb with h | h
  exacts [h₁ b h, h₂ b h]

theorem sha1_length (m : List Nat) : (sha1 m).length = 20 := by
  simp [sha1, toBeBytes_length]

theorem sha256_length (m : List Nat) : (sha256 m).length = 32 := by
  simp [sha256, toBeBytes_length]

theorem sha512_length (m : List Nat) : (sha512 m).length = 64 := by
  simp [sha512, toBeBytes_length]

theorem sha1_bytes_lt (m : List Nat) : ∀ b ∈ sha1 m, b < 256 := by
  intro b hb
  simp only [sha1, List.mem_append] at hb
  rcases hb with ((((h | h) | h) | h) | h) <;> exact toBeBytes_lt _ _ b h

theorem sha256_bytes_lt (m : List Nat) : ∀ b ∈ sha256 m, b < 256 := by
  intro b hb
  simp only [sha256, List.mem_append] at hb
  rcases hb with (((((((h | h) | h) | h) | h) | h) | h) | h) <;>
    exact toBeBytes_lt _ _ b h

theorem sha512_bytes_lt (m : List Nat) : ∀ b ∈ sha512 m, b < 256 := by
  intro b hb
  simp only [sha512, List.mem_append] at hb
  rcases hb with (((((((h | h) | h) | h) | h) | h) | h) | h) <;>
    exact toBeBytes_lt _ _ b h

theorem hmacDigest_length (alg : HashAlgorithm) (key msg : List Nat) :
    (hmacDigest alg key msg).length = digestLength alg := by
  cases alg
  · exact sha1_length _
  · exact sha256_length _
  · exact sha512_length _

theorem hmacDigest_bytes_lt (alg : HashAlgorithm) (key msg : List Nat) :
    ∀ b ∈ hmacDigest alg key msg, b < 256 := by
  cases alg
  · exact sha1_bytes_lt _
  · exact sha256_bytes_lt _
  · exact sha512_bytes_lt _

theorem digestLength_ge (alg : HashAlgorithm) : 20 ≤ digestLength alg := by
  cases alg <;> simp [digestLength]

theorem getD_lt256 {l : List Nat} (h : ∀ b ∈ l, b < 256) {i : Nat}
    (hi : i < l.length) : l.getD i 0 < 256 := by
  rw [List.getD_eq_getElem?_getD, List.getElem?_eq_getElem hi]
  exact h _ (List.getElem_mem hi)

/-! ### Decimal rendering facts -/

theorem decChars_length_le : ∀ (f n d : Nat), 1 ≤ d → n < 10 ^ d →
    (decChars f n).length ≤ d := by
  intro f
  induction f with
  | zero => intro n d _ _; simp [decChars]
  | succ f ih =>
    intro n d hd hn
    by_cases h10 : n < 10
    · simpa [decChars, h10] using hd
    · have hd2 : 2 ≤ d := by
        by_contra hcon
        have hd1 : d = 1 := by omega
        subst hd1
        simp at hn
        omega
      have hdiv : n / 10 < 10 ^ (d - 1) := by
        rw [Nat.div_lt_iff_lt_mul (by norm_num)]
        calc n < 10 ^ d := hn
        _ = 10 ^ (d - 1) * 10 := by
          rw [← Nat.pow_succ]
          congr 1
          omega
      have := ih (n / 10) (d - 1) (by omega) hdiv
      simp only [decChars, if_neg h10, List.length_append, List.length_singleton]
      omega

theorem digitChar_isDigit {m : Nat} (hm : m < 10) :
    (Char.ofNat (48 + m)).isDigit = true := by
  interval_cases m <;> decide

theorem decChars_all_digit : ∀ (f n : Nat), ∀ c ∈ decChars f n, c.isDigit = true := by
  intro f
  induction f with
  | zero => intro n c hc; simp [decChars] at hc
  | succ f ih =>
    intro n c hc
    by_cases h10 : n < 10
    · simp only [decChars, if_pos h10, List.mem_singleton] at hc
      subst hc
      exact digitChar_isDigit h10
    · simp only [decChars, if_neg h10, List.mem_append, List.mem_singleton] at hc
      rcases hc with h | h
      · exact ih _ c h
      · subst h
        exact digitChar_isDigit (Nat.mod_lt _ (by norm_num))

theorem padStartZero_length (s : String) (w : Nat) :
    (padStartZero s w).data.length = w - s.data.length + s.data.length := by
  simp [padStartZero]

theorem padStartZero_all_digit (s : String) (w : Nat)
    (hs : ∀ c ∈ s.data, c.isDigit = true) :
    ∀ c ∈ (padStartZero s w).data, c.isDigit = true := by
  intro c hc
  simp only [padStartZero, List.mem_append] at hc
  rcases hc with h | h
  · have := List.eq_of_mem_replicate h
    subst this
    decide
  · exact hs c h

theorem hotpFromDigest_length (digest : List Nat) (digits : Nat) (hd : 1 ≤ digits) :
    (hotpFromDigest digest digits).length = digits := by
  have hlt : hotpBinary digest % 10 ^ digits < 10 ^ digits :=
    Nat.mod_lt _ (Nat.pos_pow_of_pos _ (by norm_num))
  have hle := decChars_length_le (hotpBinary digest % 10 ^ digits + 1)
    (hotpBinary digest % 10 ^ digits) digits hd hlt
  rw [string_length_eq_data, hotpFromDigest, padStartZero_length]
  simp only [natToString]
  omega

theorem hotpFromDigest_all_digit (digest : List Nat) (digits : Nat) :
    ∀ c ∈ (hotpFromDigest digest digits).data, c.isDigit = true := by
  apply padStartZero_all_digit
  exact decChars_all_digit _ _

/-! ### C1: dynamic truncation -/

theorem lor_eq_add_of_lt {a b i : Nat} (hb : b < 2 ^ i) :
    (a * 2 ^ i) ||| b = a * 2 ^ i + b := by
  rw [Nat.mul_comm]
  exact (Nat.mul_add_lt_is_or hb a).symm

theorem and_fifteen (x : Nat) : x &&& 15 = x % 16 := by
  have h := Nat.and_pow_two_sub_one_eq_mod x 4
  norm_num at h
  exact h

theorem and_onetwentyseven (x : Nat) : x &&& 127 = x % 128 := by
  have h := Nat.and_pow_two_sub_one_eq_mod x 7
  norm_num at h
  exact h

theorem and_twofiftyfive (x : Nat) : x &&& 255 = x % 256 := by
  have h := Nat.and_pow_two_sub_one_eq_mod x 8
  norm_num at h
  exact h

theorem hotpBinary_eq_spec (digest : List Nat) (h256 : ∀ b ∈ digest, b < 256)
    (hlen : 20 ≤ digest.length) :
    hotpBinary digest = specBinary digest ∧ hotpBinary digest < 2 ^ 31 := by
  have hofflt : hotpOffset digest < 16 := by
    rw [hotpOffset, and_fifteen]
    exact Nat.mod_lt _ (by norm_num)
  have ha : digest.getD (hotpOffset digest) 0 < 256 := getD_lt256 h256 (by omega)
  have hb : digest.getD (hotpOffset digest + 1) 0 < 256 := getD_lt256 h256 (by omega)
  have hc : digest.getD (hotpOffset digest + 2) 0 < 256 := getD_lt256 h256 (by omega)
  have hd : digest.getD (hotpOffset digest + 3) 0 < 256 := getD_lt256 h256 (by omega)
  have hsrc : hotpBinary digest =
      (digest.getD (hotpOffset digest) 0 % 128) * 16777216 +
      digest.getD (hotpOffset digest + 1) 0 * 65536 +
      digest.getD (hotpOffset digest + 2) 0 * 256 +
      digest.getD (hotpOffset digest + 3) 0 := by
    set a := digest.getD (hotpOffset digest) 0
    set b := digest.getD (hotpOffset digest + 1) 0
    set c := digest.getD (hotpOffset digest + 2) 0
    set d := digest.getD (hotpOffset digest + 3) 0
    rw [hotpBinary]
    rw [and_onetwentyseven, and_twofiftyfive, and_twofiftyfive, and_twofiftyfive,
      Nat.mod_eq_of_lt hb, Nat.mod_eq_of_lt hc, Nat.mod_eq_of_lt hd]
    rw [Nat.shiftLeft_eq, Nat.shiftLeft_eq, Nat.shiftLeft_eq]
    have e1 : (a % 128) * 2 ^ 24 ||| b * 2 ^ 16 = (a % 128) * 2 ^ 24 + b * 2 ^ 16 :=
      lor_eq_add_of_lt (i := 24) (by omega)
    rw [e1]
    have h2 : (a % 128) * 2 ^ 24 + b * 2 ^ 16 = ((a % 128) * 256 + b) * 2 ^ 16 := by ring
    rw [h2]
    have e2 : ((a % 128) * 256 + b) * 2 ^ 16 ||| c * 2 ^ 8 =
        ((a % 128) * 256 + b) * 2 ^ 16 + c * 2 ^ 8 :=
      lor_eq_add_of_lt (i := 16) (by omega)
    rw [e2]
    have h3 : ((a % 128) * 256 + b) * 2 ^ 16 + c * 2 ^ 8 =
        (((a % 128) * 256 + b) * 256 + c) * 2 ^ 8 := by ring
    rw [h3]
    have e3 : (((a % 128) * 256 + b) * 256 + c) * 2 ^ 8 ||| d =
        (((a % 128) * 256 + b) * 256 + c) * 2 ^ 8 + d :=
      lor_eq_add_of_lt (i := 8) (by omega)
    rw [e3]
    ring
  have hspec : specBinary digest =
      (((0 * 256 + digest.getD (hotpOffset digest) 0 % 128) * 256 +
        digest.getD (hotpOffset digest + 1) 0) * 256 +
        digest.getD (hotpOffset digest + 2) 0) * 256 +
        digest.getD (hotpOffset digest + 3) 0 := rfl
  constructor
  · rw [hsrc, hspec]
    ring
  · rw [hsrc]
    have hm := Nat.mod_lt (digest.getD (hotpOffset digest) 0) (y := 128) (by norm_num)
    omega

/-- C1: for every key, counter, algorithm and digit count ≥ 1, `generateHOTP`
derives the code by RFC 4226 dynamic truncation: nibble offset from the last
digest byte, masked big-endian 4-byte read (so `binary < 2^31`), reduction
mod `10^digits`, rendered as decimal text left-zero-padded to exactly
`digits` characters. -/
theorem c1_hotp_dynamic_truncation (key : List Nat) (counter : Int)
    (algorithm : HashAlgorithm) (digits : Nat) (hd : 1 ≤ digits) :
    generateHOTP key counter algorithm digits =
      specDynamicTruncation (hmacDigest algorithm key (counterBytes 8 counter)) digits ∧
    hotpBinary (hmacDigest algorithm key (counterBytes 8 counter)) < 2 ^ 31 ∧
    (generateHOTP key counter algorithm digits).length = digits := by
  have hlen : 20 ≤ (hmacDigest algorithm key (counterBytes 8 counter)).length := by
    rw [hmacDigest_length]
    exact digestLength_ge algorithm
  have h256 := hmacDigest_bytes_lt algorithm key (counterBytes 8 counter)
  obtain ⟨heq, hlt⟩ := hotpBinary_eq_spec _ h256 hlen
  refine ⟨?_, hlt, hotpFromDigest_length _ _ hd⟩
  rw [generateHOTP, hotpFromDigest, specDynamicTruncation, heq]

/-- Witness for C1 at a concrete key, counter, algorithm and digit count. -/
theorem c1_hotp_dynamic_truncation_witness :
    generateHOTP [1] 0 .sha1 6 =
      specDynamicTruncation (hmacDigest .sha1 [1] (counterBytes 8 0)) 6 ∧
    hotpBinary (hmacDigest .sha1 [1] (counterBytes 8 0)) < 2 ^ 31 ∧
    (generateHOTP [1] 0 .sha1 6).length = 6 :=
  c1_hotp_dynamic_truncation [1] 0 .sha1 6 (by norm_num)

/-! ### C2: counter serialization -/

/-- C2 (code bug): at counter `2^32` the source's 32-bit-coercing loop
serializes eight zero bytes — the same buffer as counter `0` — while the
specified 64-bit big-endian serialization has byte 3 equal to 1. -/
theorem c2_counter_serialization_truncates :
    counterBytes 8 (4294967296 : Int) = [0, 0, 0, 0, 0, 0, 0, 0] ∧
    counterBytes 8 (4294967296 : Int) = counterBytes 8 (0 : Int) ∧
    specCounterBytes 4294967296 = [0, 0, 0, 1, 0, 0, 0, 0] ∧
    counterBytes 8 (4294967296 : Int) ≠ specCounterBytes 4294967296 := by
  refine ⟨by rfl, by rfl, by rfl, by decide⟩

/-! ### Character-level facts -/

theorem charToNat_ofNat {n : Nat} (h : n < 55296) : (Char.ofNat n).toNat = n := by
  unfold Char.ofNat
  rw [dif_pos (Or.inl h)]
  rfl

theorem char_toNat_inj {c d : Char} (h : c.toNat = d.toNat) : c = d :=
  Char.ext (UInt32.toNat.inj h)

theorem toUpper_toNat (c : Char) :
    (Char.toUpper c).toNat =
      if c.toNat ≥ 97 ∧ c.toNat ≤ 122 then c.toNat - 32 else c.toNat := by
  simp only [Char.toUpper]
  split
  · next h => exact charToNat_ofNat (by omega)
  · rfl

theorem toLower_toNat (c : Char) :
    (Char.toLower c).toNat =
      if c.toNat ≥ 65 ∧ c.toNat ≤ 90 then c.toNat + 32 else c.toNat := by
  simp only [Char.toLower]
  split
  · next h => exact charToNat_ofNat (by omega)
  · rfl

theorem toUpper_eq_self {c : Char} (h : ¬(c.toNat ≥ 97 ∧ c.toNat ≤ 122)) :
    Char.toUpper c = c := by
  simp only [Char.toUpper]
  rw [if_neg h]

theorem toLower_eq_self {c : Char} (h : ¬(c.toNat ≥ 65 ∧ c.toNat ≤ 90)) :
    Char.toLower c = c := by
  simp only [Char.toLower]
  rw [if_neg h]

theorem toUpper_toUpper (c : Char) : Char.toUpper (Char.toUpper c) = Char.toUpper c := by
  by_cases h : c.toNat ≥ 97 ∧ c.toNat ≤ 122
  · apply toUpper_eq_self
    rw [toUpper_toNat, if_pos h]
    omega
  · simp only [toUpper_eq_self h]

theorem toUpper_toLower (c : Char) : Char.toUpper (Char.toLower c) = Char.toUpper c := by
  by_cases h : c.toNat ≥ 65 ∧ c.toNat ≤ 90
  · have hlow : (Char.toLower c).toNat = c.toNat + 32 := by
      rw [toLower_toNat, if_pos h]
    rw [toUpper_eq_self (c := c) (by omega)]
    apply char_toNat_inj
    rw [toUpper_toNat, hlow, if_pos (by omega)]
    omega
  · rw [toLower_eq_self h]

theorem isJsSpace_eq_false_of_range {c : Char} (h1 : 33 ≤ c.toNat)
    (h2 : c.toNat ≤ 122) : isJsSpace c = false := by
  simp only [isJsSpace, Bool.or_eq_false_iff, Bool.and_eq_false_iff,
    decide_eq_false_iff_not]
  omega

theorem isJsSpace_toUpper (c : Char) : isJsSpace (Char.toUpper c) = isJsSpace c := by
  by_cases h : c.toNat ≥ 97 ∧ c.toNat ≤ 122
  · have hup : (Char.toUpper c).toNat = c.toNat - 32 := by
      rw [toUpper_toNat, if_pos h]
    rw [isJsSpace_eq_false_of_range (c := Char.toUpper c) (by omega) (by omega),
      isJsSpace_eq_false_of_range (c := c) (by omega) (by omega)]
  · rw [toUpper_eq_self h]

theorem isJsSpace_toLower (c : Char) : isJsSpace (Char.toLower c) = isJsSpace c := by
  by_cases h : c.toNat ≥ 65 ∧ c.toNat ≤ 90
  · have hlow : (Char.toLower c).toNat = c.toNat + 32 := by
      rw [toLower_toNat, if_pos h]
    rw [isJsSpace_eq_false_of_range (c := Char.toLower c) (by omega) (by omega),
      isJsSpace_eq_false_of_range (c := c) (by omega) (by omega)]
  · rw [toLower_eq_self h]

/-! ### C8: decode is invariant under normalization -/

theorem normalizeSecret_idem (t : String) :
    normalizeSecret (normalizeSecret t) = normalizeSecret t := by
  apply congrArg String.mk
  show (((t.data.filter (fun c => !isJsSpace c)).map Char.toUpper).filter
      (fun c => !isJsSpace c)).map Char.toUpper =
    (t.data.filter (fun c => !isJsSpace c)).map Char.toUpper
  rw [List.filter_map]
  have hfil : List.filter ((fun c => !isJsSpace c) ∘ Char.toUpper)
      (List.filter (fun c => !isJsSpace c) t.data) =
      List.filter (fun c => !isJsSpace c) t.data := by
    apply List.filter_eq_self.mpr
    intro a ha
    have h2 := (List.mem_filter.mp ha).2
    simpa [Function.comp, isJsSpace_toUpper] using h2
  rw [hfil, List.map_map]
  exact List.map_congr_left (fun a _ => toUpper_toUpper a)

theorem normalizeSecret_toLower (t : String) :
    normalizeSecret ⟨t.data.map Char.toLower⟩ = normalizeSecret t := by
  apply congrArg String.mk
  show ((t.data.map Char.toLower).filter (fun c => !isJsSpace c)).map Char.toUpper =
    (t.data.filter (fun c => !isJsSpace c)).map Char.toUpper
  rw [List.filter_map, List.map_map]
  have hfil : List.filter ((fun c => !isJsSpace c) ∘ Char.toLower) t.data =
      List.filter (fun c => !isJsSpace c) t.data := by
    apply List.filter_congr
    intro a _
    simp [Function.comp, isJsSpace_toLower]
  rw [hfil]
  exact List.map_congr_left (fun a _ => toUpper_toLower a)

theorem stripTrailingEq_append_replicate (s : String) (k : Nat) :
    stripTrailingEq ⟨s.data ++ List.replicate k '='⟩ = stripTrailingEq s := by
  apply congrArg String.mk
  apply congrArg List.reverse
  show ((s.data ++ List.replicate k '=').reverse.dropWhile (fun c => c = '=')) =
    (s.data.reverse.dropWhile (fun c => c = '='))
  rw [List.reverse_append, List.reverse_replicate]
  induction k with
  | zero => rfl
  | succ k ih =>
    rw [List.replicate_succ, List.cons_append, List.dropWhile_cons_of_pos (by decide)]
    exact ih

theorem normalizeSecret_append_replicate (t : String) (k : Nat) :
    normalizeSecret ⟨t.data ++ List.replicate k '='⟩ =
      ⟨(normalizeSecret t).data ++ List.replicate k '='⟩ := by
  apply congrArg String.mk
  show ((t.data ++ List.replicate k '=').filter (fun c => !isJsSpace c)).map Char.toUpper =
    (t.data.filter (fun c => !isJsSpace c)).map Char.toUpper ++ List.replicate k '='
  rw [List.filter_append, List.map_append]
  congr 1
  rw [List.filter_eq_self.mpr (by intro a ha; rw [List.eq_of_mem_replicate ha]; decide),
    List.map_replicate]
  exact congrArg (List.replicate k) (by decide)

theorem decodeBase32_congr {s₁ s₂ : String}
    (h : stripTrailingEq (normalizeSecret s₁) = stripTrailingEq (normalizeSecret s₂)) :
    decodeBase32 s₁ = decodeBase32 s₂ := by
  unfold decodeBase32
  rw [h]

/-- C8: Base32 decoding is invariant under normalization: the decode result
does not change under whitespace stripping and upper-casing
(`decode (normalize t) = decode t`), under lower-casing the input, or under
appending trailing `=` padding. -/
theorem c8_decode_normalization_invariant (t : String) (k : Nat) :
    decodeBase32 (normalizeSecret t) = decodeBase32 t ∧
    decodeBase32 ⟨t.data.map Char.toLower⟩ = decodeBase32 t ∧
    decodeBase32 (t ++ ⟨List.replicate k '='⟩) = decodeBase32 t := by
  refine ⟨decodeBase32_congr (by rw [normalizeSecret_idem]),
    decodeBase32_congr (by rw [normalizeSecret_toLower]),
    decodeBase32_congr ?_⟩
  show stripTrailingEq (normalizeSecret ⟨t.data ++ List.replicate k '='⟩) =
    stripTrailingEq (normalizeSecret t)
  rw [normalizeSecret_append_replicate, stripTrailingEq_append_replicate]

/-! ### C7: the decoder's error conditions -/

theorem b32_foldl_facts : ∀ (cs : List Char) (v b : Nat) (r : List Nat), b < 8 →
    (cs.foldl b32Step ⟨v, b, r⟩).result.length = r.length + (b + 5 * cs.length) / 8 ∧
    (cs.foldl b32Step ⟨v, b, r⟩).bits = (b + 5 * cs.length) % 8 := by
  intro cs
  induction cs with
  | nil =>
    intro v b r hb
    constructor
    · simp
      omega
    · simp
      omega
  | cons c cs ih =>
    intro v b r hb
    simp only [List.foldl_cons]
    by_cases h8 : 8 ≤ b + 5
    · rw [show b32Step ⟨v, b, r⟩ c =
          ⟨w32 ((v <<< 5) ||| b32Index c), b + 5 - 8,
           r ++ [(w32 ((v <<< 5) ||| b32Index c) >>> (b + 5 - 8)) &&& 255]⟩ by
        simp only [b32Step]
        rw [if_pos h8]]
      obtain ⟨ih1, ih2⟩ := ih (w32 ((v <<< 5) ||| b32Index c)) (b + 5 - 8)
        (r ++ [(w32 ((v <<< 5) ||| b32Index c) >>> (b + 5 - 8)) &&& 255]) (by omega)
      simp only [List.length_append, List.length_singleton] at ih1
      refine ⟨?_, ?_⟩ <;> simp only [List.length_cons] <;> omega
    · rw [show b32Step ⟨v, b, r⟩ c =
          ⟨w32 ((v <<< 5) ||| b32Index c), b + 5, r⟩ by
        simp only [b32Step]
        rw [if_neg h8]]
      obtain ⟨ih1, ih2⟩ := ih (w32 ((v <<< 5) ||| b32Index c)) (b + 5) r (by omega)
      refine ⟨?_, ?_⟩ <;> simp only [List.length_cons] <;> omega

/-- C7: `decodeBase32` fails with the empty-secret error exactly when the
normalized, pad-stripped string is empty; fails with the invalid-character
error exactly when some remaining character is outside `A–Z2–7`; and on every
valid input it succeeds, emitting one byte per full 8 bits and discarding the
fewer-than-8 leftover bits. -/
theorem c7_decode_error_conditions (t : String) :
    (decodeBase32 t = .error "Empty Base32 string" ↔
      (stripTrailingEq (normalizeSecret t)).data.length = 0) ∧
    (decodeBase32 t = .error "Invalid base32 character in key" ↔
      ∃ c ∈ (stripTrailingEq (normalizeSecret t)).data, ¬isB32Char c = true) ∧
    ((∃ bs, decodeBase32 t = .ok bs ∧
        bs.length = 5 * (stripTrailingEq (normalizeSecret t)).data.length / 8) ↔
      ((stripTrailingEq (normalizeSecret t)).data.length ≠ 0 ∧
       ∀ c ∈ (stripTrailingEq (normalizeSecret t)).data, isB32Char c = true)) := by
  set nk := stripTrailingEq (normalizeSecret t) with hnk
  by_cases h1 : nk.data.length = 0
  · have hdec : decodeBase32 t = .error "Empty Base32 string" := by
      unfold decodeBase32
      rw [← hnk, if_pos h1]
    have hnil : nk.data = [] := List.length_eq_zero.mp h1
    refine ⟨iff_of_true hdec h1, ?_, ?_⟩
    · constructor
      · intro h
        rw [hdec] at h
        simp only [Except.error.injEq] at h
        exact absurd h (by decide)
      · rintro ⟨c, hc, _⟩
        rw [hnil] at hc
        simp at hc
    · constructor
      · rintro ⟨bs, hbs, _⟩
        rw [hdec] at hbs
        exact Except.noConfusion hbs
      · rintro ⟨hne, _⟩
        exact absurd h1 hne
  · by_cases h2 : nk.data.all isB32Char
    · have hdec : decodeBase32 t =
          .ok (nk.data.foldl b32Step ⟨0, 0, []⟩).result := by
        unfold decodeBase32
        rw [← hnk, if_neg h1]
        simp only [h2, Bool.not_true]
        rfl
      have hall : ∀ c ∈ nk.data, isB32Char c = true := List.all_eq_true.mp h2
      obtain ⟨hlen, _⟩ := b32_foldl_facts nk.data 0 0 [] (by norm_num)
      refine ⟨?_, ?_, ?_⟩
      · constructor
        · intro h
          rw [hdec] at h
          exact Except.noConfusion h
        · intro h
          exact absurd h h1
      · constructor
        · intro h
          rw [hdec] at h
          exact Except.noConfusion h
        · rintro ⟨c, hc, hbad⟩
          exact absurd (hall c hc) hbad
      · apply iff_of_true
        · exact ⟨_, hdec, by simpa using hlen⟩
        · exact ⟨h1, hall⟩
    · have hdec : decodeBase32 t = .error "Invalid base32 character in key" := by
        unfold decodeBase32
        rw [← hnk, if_neg h1]
        simp only [Bool.not_eq_true] at h2
        simp only [h2, Bool.not_false]
        rfl
      have hex : ∃ c ∈ nk.data, ¬isB32Char c = true := by
        by_contra hcon
        push_neg at hcon
        exact h2 (List.all_eq_true.mpr (by simpa using hcon))
      refine ⟨?_, iff_of_true hdec hex, ?_⟩
      · constructor
        · intro h
          rw [hdec] at h
          simp only [Except.error.injEq] at h
          exact absurd h (by decide)
        · intro h
          exact absurd h h1
      · constructor
        · rintro ⟨bs, hbs, _⟩
          rw [hdec] at hbs
          exact Except.noConfusion hbs
        · rintro ⟨_, hall⟩
          obtain ⟨c, hc, hbad⟩ := hex
          exact absurd (hall c hc) hbad


/-! ### Resolution of the secret; success and failure of `generateTOTP` -/

theorem generateTOTP_ok (secret : Secret) (key : List Nat)
    (hkey : secretKey secret = some key) (opts : TOTPOptions) :
    generateTOTP secret opts = .ok (totpCode key (opts.algorithm.getD .sha1)
      (opts.digits.getD 6) (opts.period.getD 30) opts.timestamp) := by
  cases secret with
  | raw b =>
    simp only [secretKey, Option.some.injEq] at hkey
    subst hkey
    rfl
  | text s =>
    simp only [secretKey] at hkey
    split at hkey
    · exact Option.noConfusion hkey
    · next hne =>
      cases hdec : decodeBase32 s with
      | error e =>
        rw [hdec] at hkey
        exact Option.noConfusion hkey
      | ok b =>
        rw [hdec] at hkey
        simp only [Except.toOption, Option.some.injEq] at hkey
        subst hkey
        simp only [generateTOTP, secretFalsy]
        rw [if_neg (by simpa using hne)]
        simp only [secretBytesOf, hdec]
        rfl

theorem generateTOTP_text_error (s : String) (e : String) (opts : TOTPOptions)
    (hne : s.data.length ≠ 0) (hdec : decodeBase32 s = .error e) :
    generateTOTP (.text s) opts = .error ("Invalid secret: " ++ e) := by
  simp only [generateTOTP, secretFalsy]
  rw [if_neg (by simpa using hne)]
  simp only [secretBytesOf, hdec]

/-! ### The verification loop -/

theorem verifyLoop_all_miss (token : String) (secret : Secret) (key : List Nat)
    (alg : HashAlgorithm) (digits period : Nat) (t : Int)
    (hkey : secretKey secret = some key) :
    ∀ (L : List Int),
      (∀ i ∈ L, totpCode key alg digits period (t + i * (period : Int) * 1000) ≠ token) →
      verifyLoop token secret alg digits period t L = .ok ⟨false, none⟩ := by
  intro L
  induction L with
  | nil => intro _; rfl
  | cons i L ihL =>
    intro hmiss
    simp only [verifyLoop]
    rw [generateTOTP_ok secret key hkey]
    show (if totpCode key alg digits period (t + i * (period : Int) * 1000) = token
        then (Except.ok ⟨true, some i⟩ : Except String VerifyResult)
        else verifyLoop token secret alg digits period t L) = .ok ⟨false, none⟩
    rw [if_neg (hmiss i (List.mem_cons_self i L))]
    exact ihL (fun j hj => hmiss j (List.mem_cons_of_mem i hj))

theorem verifyLoop_first_hit (token : String) (secret : Secret) (key : List Nat)
    (alg : HashAlgorithm) (digits period : Nat) (t : Int)
    (hkey : secretKey secret = some key) :
    ∀ (before : List Int) (hit : Int) (after : List Int),
      (∀ i ∈ before, totpCode key alg digits period (t + i * (period : Int) * 1000) ≠ token) →
      totpCode key alg digits period (t + hit * (period : Int) * 1000) = token →
      verifyLoop token secret alg digits period t (before ++ hit :: after) =
        .ok ⟨true, some hit⟩ := by
  intro before
  induction before with
  | nil =>
    intro hit after _ hhit
    simp only [List.nil_append, verifyLoop]
    rw [generateTOTP_ok secret key hkey]
    show (if totpCode key alg digits period (t + hit * (period : Int) * 1000) = token
        then (Except.ok ⟨true, some hit⟩ : Except String VerifyResult)
        else verifyLoop token secret alg digits period t after) = .ok ⟨true, some hit⟩
    rw [if_pos hhit]
  | cons j before ih =>
    intro hit after hmiss hhit
    simp only [List.cons_append, verifyLoop]
    rw [generateTOTP_ok secret key hkey]
    show (if totpCode key alg digits period (t + j * (period : Int) * 1000) = token
        then (Except.ok ⟨true, some j⟩ : Except String VerifyResult)
        else verifyLoop token secret alg digits period t (before ++ hit :: after)) =
      .ok ⟨true, some hit⟩
    rw [if_neg (hmiss j (List.mem_cons_self j before))]
    exact ih hit after (fun i hi => hmiss i (List.mem_cons_of_mem j hi)) hhit

theorem verifyLoop_error_head (token : String) (secret : Secret)
    (alg : HashAlgorithm) (digits period : Nat) (t : Int) (i : Int) (rest : List Int)
    (e : String)
    (herr : generateTOTP secret
      { algorithm := some alg, digits := some digits, period := some period,
        timestamp := t + i * (period : Int) * 1000 } = .error e) :
    verifyLoop token secret alg digits period t (i :: rest) = .error e := by
  simp only [verifyLoop]
  rw [herr]

/-! ### The window offset list -/

theorem mem_windowOffsets {w i : Int} : i ∈ windowOffsets w ↔ -w ≤ i ∧ i ≤ w := by
  simp only [windowOffsets, List.mem_map, List.mem_range]
  constructor
  · rintro ⟨j, hj, rfl⟩
    omega
  · intro ⟨h1, h2⟩
    exact ⟨(i + w).toNat, by omega, by omega⟩

theorem windowOffsets_split {w i₀ : Int} (h1 : -w ≤ i₀) (h2 : i₀ ≤ w) :
    windowOffsets w =
      ((List.range (i₀ + w).toNat).map (fun (j : Nat) => -w + (j : Int))) ++
      i₀ :: ((List.range (w - i₀).toNat).map (fun (j : Nat) => i₀ + 1 + (j : Int))) := by
  have hsum : (2 * w + 1).toNat = (i₀ + w).toNat + (1 + (w - i₀).toNat) := by omega
  rw [windowOffsets, hsum, List.range_add, List.map_append, List.range_add,
    show List.range 1 = [0] from rfl]
  congr 1
  simp only [List.map_map, List.map_append, List.map_cons, List.map_nil,
    List.singleton_append, List.cons_append, List.nil_append]
  congr 1
  · show -w + (((i₀ + w).toNat + 0 : Nat) : Int) = i₀
    omega
  · apply List.map_congr_left
    intro j _
    show -w + (((i₀ + w).toNat + (1 + j) : Nat) : Int) = i₀ + 1 + (j : Int)
    push_cast
    omega

theorem mem_windowOffsets_lower {w i₀ i : Int}
    (h : i ∈ (List.range (i₀ + w).toNat).map (fun (j : Nat) => -w + (j : Int))) :
    -w ≤ i ∧ i < i₀ := by
  simp only [List.mem_map, List.mem_range] at h
  obtain ⟨j, hj, rfl⟩ := h
  omega

theorem verifyTOTP_eq_loop (token : String) (secret : Secret) (opts : TOTPOptions)
    (hne : token.data.length ≠ 0) (hlen : token.data.length = opts.digits.getD 6)
    (hdig : token.data.all Char.isDigit = true) :
    verifyTOTP token secret opts = verifyLoop token secret (opts.algorithm.getD .sha1)
      (opts.digits.getD 6) (opts.period.getD 30) opts.timestamp
      (windowOffsets (opts.window.getD 1)) := by
  simp only [verifyTOTP]
  rw [if_neg (by push_neg; exact ⟨hne, hlen, hdig⟩)]

theorem totpCode_length (key : List Nat) (alg : HashAlgorithm) (digits period : Nat)
    (ts : Int) (hd : 1 ≤ digits) :
    (totpCode key alg digits period ts).data.length = digits :=
  hotpFromDigest_length _ _ hd

theorem totpCode_all_digit (key : List Nat) (alg : HashAlgorithm)
    (digits period : Nat) (ts : Int) :
    (totpCode key alg digits period ts).data.all Char.isDigit = true :=
  List.all_eq_true.mpr (hotpFromDigest_all_digit _ _)

/-! ### C5: format fast-reject -/

/-- C5: a token that is empty, has length different from the digit count, or
contains a non-digit character is rejected with `{valid := false}` uniformly
— for every secret (even an undecodable one) and every timestamp, with no
HMAC computed. -/
theorem c5_format_reject_before_crypto (token : String) (secret : Secret)
    (opts : TOTPOptions)
    (h : token.data.length = 0 ∨ token.data.length ≠ opts.digits.getD 6 ∨
      ∃ c ∈ token.data, ¬c.isDigit = true) :
    verifyTOTP token secret opts = .ok ⟨false, none⟩ := by
  have hcond : token.data.length = 0 ∨ token.data.length ≠ opts.digits.getD 6 ∨
      ¬token.data.all Char.isDigit := by
    rcases h with h | h | ⟨c, hc, hd⟩
    · exact Or.inl h
    · exact Or.inr (Or.inl h)
    · exact Or.inr (Or.inr (fun hall => hd (List.all_eq_true.mp hall c hc)))
  simp only [verifyTOTP]
  rw [if_pos hcond]

/-- Witness for C5: a malformed token is rejected even with an undecodable
secret. -/
theorem c5_format_reject_before_crypto_witness :
    verifyTOTP "12a456" (.text "!!") { timestamp := 0 } = .ok ⟨false, none⟩ :=
  c5_format_reject_before_crypto "12a456" (.text "!!") { timestamp := 0 }
    (Or.inr (Or.inr ⟨'a', by decide, by decide⟩))

/-! ### C3: the verification window scan -/

/-- C3: for a token passing the format check, a resolvable secret and window
`w ≥ 0`, `verifyTOTP` probes offsets `-w, ..., +w` in increasing order
against `generate` at `timestamp + i * period * 1000`: it returns
`{valid := true, delta := i₀}` for the first (most negative) matching
offset `i₀`, and `{valid := false}` (delta absent) when no offset matches. -/
theorem c3_verify_scans_window_in_order (token : String) (secret : Secret)
    (key : List Nat) (alg : HashAlgorithm) (digits period : Nat) (t w : Int)
    (opts : TOTPOptions) (hkey : secretKey secret = some key)
    (halg : opts.algorithm.getD .sha1 = alg) (hdig : opts.digits.getD 6 = digits)
    (hper : opts.period.getD 30 = period) (ht : opts.timestamp = t)
    (hwin : opts.window.getD 1 = w) (hw0 : 0 ≤ w)
    (hne : token.data.length ≠ 0) (hlen : token.data.length = digits)
    (hdigs : token.data.all Char.isDigit = true) :
    ((∀ i : Int, -w ≤ i → i ≤ w →
        totpCode key alg digits period (t + i * (period : Int) * 1000) ≠ token) →
      verifyTOTP token secret opts = .ok ⟨false, none⟩) ∧
    (∀ i₀ : Int, -w ≤ i₀ → i₀ ≤ w →
      totpCode key alg digits period (t + i₀ * (period : Int) * 1000) = token →
      (∀ j : Int, -w ≤ j → j < i₀ →
        totpCode key alg digits period (t + j * (period : Int) * 1000) ≠ token) →
      verifyTOTP token secret opts = .ok ⟨true, some i₀⟩) := by
  have hver : verifyTOTP token secret opts =
      verifyLoop token secret alg digits period t (windowOffsets w) := by
    rw [verifyTOTP_eq_loop token secret opts hne (by rw [hlen, hdig]) hdigs,
      halg, hdig, hper, ht, hwin]
  constructor
  · intro hmiss
    rw [hver]
    exact verifyLoop_all_miss token secret key alg digits period t hkey
      (windowOffsets w)
      (fun i hi => hmiss i (mem_windowOffsets.mp hi).1 (mem_windowOffsets.mp hi).2)
  · intro i₀ h1 h2 hhit hbefore
    rw [hver, windowOffsets_split h1 h2]
    exact verifyLoop_first_hit token secret key alg digits period t hkey _ i₀ _
      (fun i hi => hbefore i (mem_windowOffsets_lower hi).1 (mem_windowOffsets_lower hi).2)
      hhit

/-- Witness for C3 at a concrete token, secret and option set. -/
theorem c3_verify_scans_window_in_order_witness :
    ((∀ i : Int, -(0 : Int) ≤ i → i ≤ (0 : Int) →
        totpCode [1] .sha1 6 30 ((0 : Int) + i * ((30 : Nat) : Int) * 1000) ≠ "123456") →
      verifyTOTP "123456" (.raw [1]) { timestamp := 0, window := some 0 } =
        .ok ⟨false, none⟩) ∧
    (∀ i₀ : Int, -(0 : Int) ≤ i₀ → i₀ ≤ (0 : Int) →
      totpCode [1] .sha1 6 30 ((0 : Int) + i₀ * ((30 : Nat) : Int) * 1000) = "123456" →
      (∀ j : Int, -(0 : Int) ≤ j → j < i₀ →
        totpCode [1] .sha1 6 30 ((0 : Int) + j * ((30 : Nat) : Int) * 1000) ≠ "123456") →
      verifyTOTP "123456" (.raw [1]) { timestamp := 0, window := some 0 } =
        .ok ⟨true, some i₀⟩) :=
  c3_verify_scans_window_in_order "123456" (.raw [1]) [1] .sha1 6 30 0 0
    { timestamp := 0, window := some 0 } rfl rfl rfl rfl rfl rfl (by norm_num)
    (by decide) (by decide) (by decide)

/-! ### C9: codes outside the window -/

/-- C9 is refuted as stated: with window 0, a code generated one step in the
future (`window + 1` steps away) is nevertheless accepted, because at this
input the adjacent HMAC-SHA1 codes collide. -/
theorem c9_counterexample_outside_window_accepted :
    generateTOTP (.text "JBSWY3DPEHPK3PXP")
      { timestamp := (111317040000 : Int) + 1 * 30 * 1000 } = .ok "874294" ∧
    verifyTOTP "874294" (.text "JBSWY3DPEHPK3PXP")
      { timestamp := 111317040000, window := some 0 } = .ok ⟨true, some 0⟩ :=
  ⟨rfl, rfl⟩

/-- C9 (amended): a code whose counter is `window + 1` steps away from the
current counter is rejected for that window, provided no counter inside the
window happens to produce the same code text. -/
theorem c9_outside_window_rejected_no_collision (secret : Secret) (key : List Nat)
    (alg : HashAlgorithm) (digits period : Nat) (t w k : Int) (opts : TOTPOptions)
    (hkey : secretKey secret = some key)
    (halg : opts.algorithm.getD .sha1 = alg) (hdig : opts.digits.getD 6 = digits)
    (hper : opts.period.getD 30 = period) (ht : opts.timestamp = t)
    (hwin : opts.window.getD 1 = w) (hw0 : 0 ≤ w)
    (hk : k = w + 1 ∨ k = -(w + 1)) (hd : 1 ≤ digits)
    (hnocol : ∀ i : Int, -w ≤ i → i ≤ w →
      totpCode key alg digits period (t + i * (period : Int) * 1000) ≠
        totpCode key alg digits period (t + k * (period : Int) * 1000)) :
    verifyTOTP (totpCode key alg digits period (t + k * (period : Int) * 1000))
      secret opts = .ok ⟨false, none⟩ := by
  have hver : verifyTOTP (totpCode key alg digits period (t + k * (period : Int) * 1000))
      secret opts =
      verifyLoop (totpCode key alg digits period (t + k * (period : Int) * 1000))
        secret alg digits period t (windowOffsets w) := by
    rw [verifyTOTP_eq_loop _ secret opts
      (by rw [totpCode_length key alg digits period _ hd]; omega)
      (by rw [totpCode_length key alg digits period _ hd, hdig])
      (totpCode_all_digit key alg digits period _),
      halg, hdig, hper, ht, hwin]
  rw [hver]
  exact verifyLoop_all_miss _ secret key alg digits period t hkey (windowOffsets w)
    (fun i hi => hnocol i (mem_windowOffsets.mp hi).1 (mem_windowOffsets.mp hi).2)

/-- Witness for C9 (amended) at a concrete secret, window 0 and `k = 1`. -/
theorem c9_outside_window_rejected_no_collision_witness :
    verifyTOTP (totpCode [1] .sha1 6 30 ((0 : Int) + 1 * ((30 : Nat) : Int) * 1000))
      (.raw [1]) { timestamp := 0, window := some 0 } = .ok ⟨false, none⟩ :=
  c9_outside_window_rejected_no_collision (.raw [1]) [1] .sha1 6 30 0 0 1
    { timestamp := 0, window := some 0 } rfl rfl rfl rfl rfl rfl (by norm_num)
    (Or.inl rfl) (by norm_num)
    (fun i h1 h2 => by
      have hi : i = 0 := by omega
      subst hi
      decide)

/-! ### C10: invalid secrets during verification -/

/-- C10 is refuted as stated for the empty textual secret: its Base32
decoding fails, yet the error that propagates out of the window loop is the
missing-secret error, not the wrapped invalid-secret error. -/
theorem c10_counterexample_empty_secret_message :
    decodeBase32 "" = .error "Empty Base32 string" ∧
    verifyTOTP "123456" (.text "") { timestamp := 0 } =
      .error "Secret must be provided" ∧
    verifyTOTP "123456" (.text "") { timestamp := 0 } ≠
      .error ("Invalid secret: " ++ "Empty Base32 string") := by
  refine ⟨rfl, rfl, fun h => ?_⟩
  rw [show verifyTOTP "123456" (.text "") { timestamp := 0 } =
    .error "Secret must be provided" from rfl] at h
  simp only [Except.error.injEq] at h
  exact absurd h (by decide)

/-- C10 (amended): for a format-passing token and a nonempty textual secret
whose Base32 decoding fails, `verifyTOTP` does not return `{valid := false}`
— the wrapped invalid-secret error propagates out of the first iteration of
the window loop. -/
theorem c10_invalid_secret_error_propagates (token s e : String)
    (opts : TOTPOptions)
    (hne : token.data.length ≠ 0) (hlen : token.data.length = opts.digits.getD 6)
    (hdigs : token.data.all Char.isDigit = true)
    (hs : s.data.length ≠ 0) (hdec : decodeBase32 s = .error e)
    (hw : 0 ≤ opts.window.getD 1) :
    verifyTOTP token (.text s) opts = .error ("Invalid secret: " ++ e) := by
  rw [verifyTOTP_eq_loop token (.text s) opts hne hlen hdigs]
  have hsplit := @windowOffsets_split (opts.window.getD 1)
    (-(opts.window.getD 1)) (le_refl _) (by omega)
  have hzero : (-(opts.window.getD 1) + opts.window.getD 1).toNat = 0 := by omega
  rw [hzero] at hsplit
  simp only [List.range_zero, List.map_nil, List.nil_append] at hsplit
  rw [hsplit]
  exact verifyLoop_error_head token (.text s) _ _ _ _ _ _ _
    (generateTOTP_text_error s e _ hs hdec)

/-- Witness for C10 (amended) at a concrete invalid secret. -/
theorem c10_invalid_secret_error_propagates_witness :
    verifyTOTP "123456" (.text "0") { timestamp := 0 } =
      .error ("Invalid secret: " ++ "Invalid base32 character in key") :=
  c10_invalid_secret_error_propagates "123456" "0" "Invalid base32 character in key"
    { timestamp := 0 } (by decide) (by decide) (by decide) (by decide) rfl
    (by norm_num)

/-! ### C4: the generate/verify round trip -/

/-- C4 is refuted as stated: at this secret and timestamp the codes of the
current and the previous counter collide, so verifying a freshly generated
code reports drift `-1`, not `0` (the loop starts at the most negative
offset). -/
theorem c4_counterexample_adjacent_collision_delta :
    generateTOTP (.text "JBSWY3DPEHPK3PXP") { timestamp := 111317070000 } =
      .ok "874294" ∧
    verifyTOTP "874294" (.text "JBSWY3DPEHPK3PXP") { timestamp := 111317070000 } =
      .ok ⟨true, some (-1)⟩ :=
  ⟨rfl, rfl⟩

/-- C4 (amended): verifying `generate(secret, {timestamp})` against the same
timestamp returns `{valid := true, delta := 0}` unless the code of the
previous step coincides with it, in which case `delta = -1`; and verifying a
code generated one period earlier with window 1 returns
`{valid := true, delta := -1}` unconditionally. -/
theorem c4_roundtrip_amended (secret : Secret) (key : List Nat) (t : Int)
    (code codePrev : String) (hkey : secretKey secret = some key)
    (hgen : generateTOTP secret { timestamp := t } = .ok code)
    (hprev : generateTOTP secret { timestamp := t - 30 * 1000 } = .ok codePrev) :
    (codePrev ≠ code →
      verifyTOTP code secret { timestamp := t } = .ok ⟨true, some 0⟩) ∧
    (codePrev = code →
      verifyTOTP code secret { timestamp := t } = .ok ⟨true, some (-1)⟩) ∧
    verifyTOTP codePrev secret { timestamp := t, window := some 1 } =
      .ok ⟨true, some (-1)⟩ := by
  rw [generateTOTP_ok secret key hkey] at hgen hprev
  have hcode : code = totpCode key .sha1 6 30 t := (Except.ok.inj hgen).symm
  have hprevcode : codePrev = totpCode key .sha1 6 30 (t - 30 * 1000) :=
    (Except.ok.inj hprev).symm
  subst hcode
  subst hprevcode
  have harithm1 : t + (-1 : Int) * ((30 : Nat) : Int) * 1000 = t - 30 * 1000 := by
    push_cast
    ring
  have harith0 : t + (0 : Int) * ((30 : Nat) : Int) * 1000 = t := by
    push_cast
    ring
  have hsplit1 : windowOffsets 1 = [-1] ++ (0 : Int) :: [1] := by decide
  have hsplit2 : windowOffsets 1 = ([] : List Int) ++ (-1 : Int) :: [0, 1] := by decide
  have hfmt : ∀ ts : Int, (totpCode key .sha1 6 30 ts).data.length ≠ 0 ∧
      (totpCode key .sha1 6 30 ts).data.length = 6 := by
    intro ts
    rw [totpCode_length key .sha1 6 30 ts (by norm_num)]
    exact ⟨by norm_num, rfl⟩
  refine ⟨?_, ?_, ?_⟩
  · intro hnecol
    rw [verifyTOTP_eq_loop _ secret { timestamp := t } (hfmt t).1 (hfmt t).2
      (totpCode_all_digit key .sha1 6 30 t)]
    show verifyLoop _ secret .sha1 6 30 t (windowOffsets 1) = _
    rw [hsplit1]
    apply verifyLoop_first_hit _ secret key .sha1 6 30 t hkey [-1] 0 [1]
    · intro i hi
      have hi1 : i = -1 := by simpa using hi
      subst hi1
      rw [harithm1]
      exact hnecol
    · rw [harith0]
  · intro hcol
    rw [verifyTOTP_eq_loop _ secret { timestamp := t } (hfmt t).1 (hfmt t).2
      (totpCode_all_digit key .sha1 6 30 t)]
    show verifyLoop _ secret .sha1 6 30 t (windowOffsets 1) = _
    rw [hsplit2]
    apply verifyLoop_first_hit _ secret key .sha1 6 30 t hkey [] (-1) [0, 1]
    · intro i hi
      simp at hi
    · rw [harithm1]
      exact hcol
  · rw [verifyTOTP_eq_loop _ secret { timestamp := t, window := some 1 }
      (hfmt (t - 30 * 1000)).1 (hfmt (t - 30 * 1000)).2
      (totpCode_all_digit key .sha1 6 30 (t - 30 * 1000))]
    show verifyLoop _ secret .sha1 6 30 t (windowOffsets 1) = _
    rw [hsplit2]
    apply verifyLoop_first_hit _ secret key .sha1 6 30 t hkey [] (-1) [0, 1]
    · intro i hi
      simp at hi
    · rw [harithm1]

/-- Witness for C4 (amended) at a concrete secret and timestamp (where the
adjacent codes do not collide). -/
theorem c4_roundtrip_amended_witness :
    ("504455" ≠ "930202" →
      verifyTOTP "930202" (.text "JBSWY3DPEHPK3PXP") { timestamp := 1635000000000 } =
        .ok ⟨true, some 0⟩) ∧
    ("504455" = "930202" →
      verifyTOTP "930202" (.text "JBSWY3DPEHPK3PXP") { timestamp := 1635000000000 } =
        .ok ⟨true, some (-1)⟩) ∧
    verifyTOTP "504455" (.text "JBSWY3DPEHPK3PXP")
      { timestamp := 1635000000000, window := some 1 } = .ok ⟨true, some (-1)⟩ :=
  c4_roundtrip_amended (.text "JBSWY3DPEHPK3PXP")
    [72, 101, 108, 108, 111, 33, 222, 173, 190, 239] 1635000000000
    "930202" "504455" rfl rfl rfl

/-! ### C6: missing and invalid secrets in `generateTOTP` -/

/-- C6 is refuted as stated for raw-bytes secrets: an empty `Uint8Array` is
truthy in JavaScript, so generation proceeds (HMAC with an empty key) instead
of failing with the missing-secret error. -/
theorem c6_counterexample_empty_raw_secret :
    generateTOTP (.raw []) { timestamp := 0 } = .ok "328482" ∧
    generateTOTP (.raw []) { timestamp := 0 } ≠ .error "Secret must be provided" := by
  refine ⟨rfl, fun h => ?_⟩
  rw [show generateTOTP (.raw []) { timestamp := 0 } = .ok "328482" from rfl] at h
  exact Except.noConfusion h

/-- C6 (amended): `generateTOTP` fails with the missing-secret error when the
textual secret is empty; for a nonempty textual secret whose Base32 decoding
fails it fails with the invalid-secret error wrapping the codec message; a
raw-bytes secret — even an empty one — never triggers the missing-secret
error. -/
theorem c6_missing_and_invalid_secret (s : String) (bytes : List Nat)
    (opts : TOTPOptions) :
    (s.data.length = 0 → generateTOTP (.text s) opts = .error "Secret must be provided") ∧
    (∀ e, s.data.length ≠ 0 → decodeBase32 s = .error e →
      generateTOTP (.text s) opts = .error ("Invalid secret: " ++ e)) ∧
    generateTOTP (.raw bytes) opts ≠ .error "Secret must be provided" := by
  refine ⟨?_, ?_, ?_⟩
  · intro h0
    simp only [generateTOTP, secretFalsy]
    rw [if_pos (by simpa using h0)]
  · intro e hne hdec
    exact generateTOTP_text_error s e opts hne hdec
  · intro h
    rw [generateTOTP_ok (.raw bytes) bytes rfl opts] at h
    exact Except.noConfusion h

/-- Witness for C6 (amended) at concrete secrets. -/
theorem c6_missing_and_invalid_secret_witness :
    (("" : String).data.length = 0 →
      generateTOTP (.text "") { timestamp := 0 } = .error "Secret must be provided") ∧
    (∀ e, ("" : String).data.length ≠ 0 → decodeBase32 "" = .error e →
      generateTOTP (.text "") { timestamp := 0 } = .error ("Invalid secret: " ++ e)) ∧
    generateTOTP (.raw [1]) { timestamp := 0 } ≠ .error "Secret must be provided" :=
  c6_missing_and_invalid_secret "" [1] { timestamp := 0 }

end Totpify
